import Mathlib

/-!
Verification of the free-window generator in `src/main.py`
(repository `Leenominai/test_medgarant`).

The program computes fixed-size (30-minute) free windows in a working day,
given day boundaries and a list of busy intervals.  Times are modelled as
natural numbers of minutes since midnight (Python works on `datetime`
values parsed from `HH:MM` strings; all arithmetic the program performs on
them — subtraction, comparison, `max`, adding whole minutes — is exactly
minute arithmetic).  Fallible Python code (raising `ValueError`) is
modelled with `Except String`.
-/

namespace MedGarant

/-- Numeric value of a decimal digit character. -/
def digitVal (c : Char) : Nat := c.toNat - 48

/-- Model of the CPython `strptime` directive `%H`, whose regular
expression is `2[0-3]|[0-1]\d|\d` (see `Lib/_strptime.py`): it consumes a
two-digit hour `00`–`23` or a single digit `0`–`9` from the front of the
character list.  The alternatives are tried in regex order; no later
backtracking can change acceptance because a digit can never also match
the literal `:` that must follow. -/
def matchHour : List Char → Option (Nat × List Char)
  | [] => none
  | [c] => if c.isDigit then some (digitVal c, []) else none
  | c1 :: c2 :: rest =>
    if c1 = '2' ∧ '0' ≤ c2 ∧ c2 ≤ '3' then
      some (20 + digitVal c2, rest)
    else if ('0' ≤ c1 ∧ c1 ≤ '1') ∧ c2.isDigit then
      some (10 * digitVal c1 + digitVal c2, rest)
    else if c1.isDigit then
      some (digitVal c1, c2 :: rest)
    else
      none

/-- Model of the CPython `strptime` directive `%M`, regular expression
`[0-5]\d|\d`: a two-digit minute `00`–`59` or a single digit `0`–`9`. -/
def matchMinute : List Char → Option (Nat × List Char)
  | [] => none
  | [c] => if c.isDigit then some (digitVal c, []) else none
  | c1 :: c2 :: rest =>
    if ('0' ≤ c1 ∧ c1 ≤ '5') ∧ c2.isDigit then
      some (10 * digitVal c1 + digitVal c2, rest)
    else if c1.isDigit then
      some (digitVal c1, c2 :: rest)
    else
      none

/-- Model of `datetime.strptime(time_str, "%H:%M")`: match `%H`, the
literal `:`, then `%M`, and require the whole string to be consumed
(CPython raises `ValueError: unconverted data remains` otherwise).
Returns the hour and minute on success, `none` on `ValueError`. -/
def strptimeHM (s : String) : Option (Nat × Nat) :=
  match matchHour s.toList with
  | none => none
  | some (h, rest) =>
    match rest with
    | ':' :: rest2 =>
      match matchMinute rest2 with
      | some (m, []) => some (h, m)
      | _ => none
    | _ => none

/-- `convert_to_datetime_format` (src/main.py lines 19–35): parse an
`HH:MM` string via `strptime`, re-raising a parse failure as a
`ValueError` with a Russian message.  The resulting time of day is
represented as minutes since midnight. -/
def convert_to_datetime_format (time_str : String) : Except String Nat :=
  match strptimeHM time_str with
  | some (h, m) => .ok (60 * h + m)
  | none =>
    .error ("Некорректный формат времени: " ++ time_str ++ ". Ожидается формат HH:MM.")

/-- A busy-interval record, i.e. a Python dict that may or may not carry
the keys `start` and `stop` (a missing key raises `KeyError` on access). -/
structure TimeRec where
  start : Option String
  stop : Option String
  deriving DecidableEq, Repr

/-- Conversion of one busy-interval record inside the list comprehension
of `generate_busy_intervals` (src/main.py lines 53–59), in Python
evaluation order: look up `start` (raising `KeyError`, re-raised by the
surrounding handler as the missing-field `ValueError`), convert it, look
up `stop`, convert it. -/
def convRecord (r : TimeRec) : Except String (Nat × Nat) :=
  match r.start with
  | none => .error "Отсутствует обязательное поле start в одном из интервалов."
  | some s =>
    match convert_to_datetime_format s with
    | .error e => .error e
    | .ok a =>
      match r.stop with
      | none => .error "Отсутствует обязательное поле stop в одном из интервалов."
      | some t =>
        match convert_to_datetime_format t with
        | .error e => .error e
        | .ok b => .ok (a, b)

/-- The list comprehension in `generate_busy_intervals`: records are
converted left to right, and the first failure aborts the whole list. -/
def convertIntervals : List TimeRec → Except String (List (Nat × Nat))
  | [] => .ok []
  | r :: rest =>
    match convRecord r with
    | .error e => .error e
    | .ok p =>
      match convertIntervals rest with
      | .error e => .error e
      | .ok ps => .ok (p :: ps)

/-- The ordering used by `sorted(..., key=lambda x: x[0])`: compare
interval pairs by their start time. -/
def keyLe (p q : Nat × Nat) : Prop := p.1 ≤ q.1

instance : DecidableRel keyLe := fun p q => inferInstanceAs (Decidable (p.1 ≤ q.1))

instance : IsTotal (Nat × Nat) keyLe := ⟨fun a b => Nat.le_total a.1 b.1⟩

instance : IsTrans (Nat × Nat) keyLe := ⟨fun _ _ _ => Nat.le_trans⟩

/-- `generate_busy_intervals` (src/main.py lines 38–62): convert every
record, then sort the pairs by start time with
`sorted(..., key=lambda x: x[0])`.  Python's sort is stable, as is
`List.insertionSort`, so ties keep their original relative order. -/
def generate_busy_intervals (busy_intervals : List TimeRec) :
    Except String (List (Nat × Nat)) :=
  match convertIntervals busy_intervals with
  | .error e => .error e
  | .ok ps => .ok (ps.insertionSort keyLe)

/-- One output record of the generator: Python dict
`{start: ..., stop: ..., type: ...}`. -/
structure Window where
  start : Nat
  stop : Nat
  type : String
  deriving DecidableEq, Repr

/-- The free windows emitted for a single busy interval of the walk
(src/main.py lines 108–116): if `busy_start - current_start` is at least
30 minutes, emit `(busy_start - current_start) // 30` consecutive
30-minute windows starting at `current_start`; otherwise nothing. -/
def stepWindows (current_start busy_start : Nat) : List Window :=
  if current_start + 30 ≤ busy_start then
    (List.range ((busy_start - current_start) / 30)).map fun j =>
      { start := current_start + 30 * j
        stop := current_start + 30 * (j + 1)
        type := "Свободное окно" }
  else
    []

/-- The cursor update `current_start = max(current_start, busy_stop)`
(src/main.py line 118). -/
def nextCursor (current_start busy_stop : Nat) : Nat :=
  max current_start busy_stop

/-- The loop of `generate_free_windows` (src/main.py lines 107–118) over
the augmented interval list `busy_intervals_format[1:]`, accumulating the
emitted free windows in iteration order. -/
def walk (current_start : Nat) : List (Nat × Nat) → List Window
  | [] => []
  | (busy_start, busy_stop) :: rest =>
    stepWindows current_start busy_start ++ walk (nextCursor current_start busy_stop) rest

/-- `generate_free_windows` (src/main.py lines 65–124): parse the day
boundaries, sort the busy intervals, prepend the `(start, start)` sentinel
and append the `(end, end)` sentinel, and walk the list from index 1 with
the cursor initialised to the first sentinel's stop time.  Any
`ValueError` raised inside is re-raised with the prefix
`Ошибка во входных данных`. -/
def generate_free_windows (start_time end_time : String) (busy_intervals : List TimeRec) :
    Except String (List Window) :=
  match convert_to_datetime_format start_time with
  | .error e => .error ("Ошибка во входных данных: " ++ e)
  | .ok s =>
    match convert_to_datetime_format end_time with
    | .error e => .error ("Ошибка во входных данных: " ++ e)
    | .ok e =>
      match generate_busy_intervals busy_intervals with
      | .error msg => .error ("Ошибка во входных данных: " ++ msg)
      | .ok pairs => .ok (walk s (pairs ++ [(e, e)]))

/-- The module-level constant `START_TIME` (src/main.py line 7). -/
def START_TIME : String := "09:00"

/-- The module-level constant `END_TIME` (src/main.py line 8). -/
def END_TIME : String := "21:00"

/-- The module-level constant `BUSY` (src/main.py lines 10–16). -/
def BUSY : List TimeRec :=
  [ { start := some "10:30", stop := some "10:50" }
  , { start := some "18:40", stop := some "18:50" }
  , { start := some "14:40", stop := some "15:50" }
  , { start := some "16:40", stop := some "17:20" }
  , { start := some "20:05", stop := some "20:20" } ]

/-- Basic shape of every window emitted by one step of the walk: it starts
at or after the cursor, lasts exactly 30 minutes, ends at or before the
busy interval's start, and is labeled as a free window. -/
theorem stepWindows_mem {c b : Nat} {w : Window} (h : w ∈ stepWindows c b) :
    c ≤ w.start ∧ w.stop = w.start + 30 ∧ w.stop ≤ b ∧ w.type = "Свободное окно" := by
  unfold stepWindows at h
  by_cases hc : c + 30 ≤ b
  · simp only [if_pos hc, List.mem_map, List.mem_range] at h
    obtain ⟨j, hj, rfl⟩ := h
    have hdiv : (b - c) / 30 * 30 ≤ b - c := Nat.div_mul_le_self _ _
    refine ⟨Nat.le_add_right _ _, by simp; omega, ?_, rfl⟩
    simp only
    omega
  · simp [if_neg hc] at h

/-- The windows of one step are mutually ordered: any earlier window ends
at or before a later one starts. -/
theorem stepWindows_pairwise (c b : Nat) :
    List.Pairwise (fun u v : Window => u.stop ≤ v.start ∧ u.start ≤ v.start)
      (stepWindows c b) := by
  unfold stepWindows
  by_cases hc : c + 30 ≤ b
  · simp only [if_pos hc, List.pairwise_map]
    exact (List.pairwise_lt_range _).imp (by intro i j hij; constructor <;> simp <;> omega)
  · simp [if_neg hc]

/-- Consecutive windows of one step are seamless: each window's stop is
the next window's start. -/
theorem stepWindows_chain (c b : Nat) :
    List.Chain' (fun u v : Window => u.stop = v.start) (stepWindows c b) := by
  unfold stepWindows
  by_cases hc : c + 30 ≤ b
  · simp only [if_pos hc, List.chain'_map]
    cases hk : (b - c) / 30 with
    | zero => simp
    | succ n =>
      rw [List.chain'_range_succ]
      intro m _
      simp
  · simp [if_neg hc]

/-- Every window the walk emits starts at or after the cursor. -/
theorem walk_start_ge :
    ∀ (pairs : List (Nat × Nat)) (c : Nat) (w : Window),
      w ∈ walk c pairs → c ≤ w.start := by
  intro pairs
  induction pairs with
  | nil => intro c w h; simp [walk] at h
  | cons p rest ih =>
    intro c w h
    obtain ⟨s, t⟩ := p
    simp only [walk, List.mem_append] at h
    rcases h with h | h
    · exact (stepWindows_mem h).1
    · exact le_trans (Nat.le_max_left c t) (ih (nextCursor c t) w h)

/-- Every window the walk emits lasts exactly 30 minutes and is labeled
as a free window. -/
theorem walk_mem_shape :
    ∀ (pairs : List (Nat × Nat)) (c : Nat) (w : Window),
      w ∈ walk c pairs → w.stop = w.start + 30 ∧ w.type = "Свободное окно" := by
  intro pairs
  induction pairs with
  | nil => intro c w h; simp [walk] at h
  | cons p rest ih =>
    intro c w h
    obtain ⟨s, t⟩ := p
    simp only [walk, List.mem_append] at h
    rcases h with h | h
    · exact ⟨(stepWindows_mem h).2.1, (stepWindows_mem h).2.2.2⟩
    · exact ih _ w h

/-- If every walked interval has `start ≤ stop`, the emitted windows are
pairwise ordered and non-overlapping. -/
theorem walk_pairwise :
    ∀ (pairs : List (Nat × Nat)) (c : Nat),
      (∀ p ∈ pairs, p.1 ≤ p.2) →
      List.Pairwise (fun u v : Window => u.stop ≤ v.start ∧ u.start ≤ v.start)
        (walk c pairs) := by
  intro pairs
  induction pairs with
  | nil => intro c _; simp [walk]
  | cons p rest ih =>
    intro c hvalid
    obtain ⟨s, t⟩ := p
    have hst : s ≤ t := hvalid (s, t) (List.mem_cons_self _ _)
    simp only [walk, List.pairwise_append]
    refine ⟨stepWindows_pairwise c s,
      ih (nextCursor c t) (fun q hq => hvalid q (List.mem_cons_of_mem _ hq)), ?_⟩
    intro x hx y hy
    have hx1 := stepWindows_mem hx
    have hy1 := walk_start_ge rest (nextCursor c t) y hy
    have ht : t ≤ nextCursor c t := Nat.le_max_right c t
    constructor
    · omega
    · omega

/-- If every walked interval starts at or before `B`, every emitted
window ends at or before `B`. -/
theorem walk_stop_le :
    ∀ (pairs : List (Nat × Nat)) (c B : Nat),
      (∀ p ∈ pairs, p.1 ≤ B) →
      ∀ w ∈ walk c pairs, w.stop ≤ B := by
  intro pairs
  induction pairs with
  | nil => intro c B _ w h; simp [walk] at h
  | cons p rest ih =>
    intro c B hB w h
    obtain ⟨s, t⟩ := p
    simp only [walk, List.mem_append] at h
    rcases h with h | h
    · exact le_trans (stepWindows_mem h).2.2.1 (hB (s, t) (List.mem_cons_self _ _))
    · exact ih (nextCursor c t) B (fun q hq => hB q (List.mem_cons_of_mem _ hq)) w h

/-- The cursor value after the walk has processed a list of intervals:
the fold of `current_start = max(current_start, busy_stop)` over them. -/
def foldCursor (c : Nat) (l : List (Nat × Nat)) : Nat :=
  l.foldl (fun acc p => nextCursor acc p.2) c

/-- The walk over an appended list is the walk over the first part
followed by the walk over the second part from the folded cursor. -/
theorem walk_append :
    ∀ (l1 l2 : List (Nat × Nat)) (c : Nat),
      walk c (l1 ++ l2) = walk c l1 ++ walk (foldCursor c l1) l2 := by
  intro l1
  induction l1 with
  | nil => intro l2 c; rfl
  | cons p rest ih =>
    intro l2 c
    obtain ⟨s, t⟩ := p
    show stepWindows c s ++ walk (nextCursor c t) (rest ++ l2) =
      walk c ((s, t) :: rest) ++ walk (foldCursor c ((s, t) :: rest)) l2
    rw [ih l2 (nextCursor c t)]
    show stepWindows c s ++
        (walk (nextCursor c t) rest ++ walk (foldCursor (nextCursor c t) rest) l2) =
      stepWindows c s ++ walk (nextCursor c t) rest ++
        walk (foldCursor (nextCursor c t) rest) l2
    rw [List.append_assoc]

/-- The folded cursor never drops below its starting value. -/
theorem le_foldCursor :
    ∀ (l : List (Nat × Nat)) (c : Nat), c ≤ foldCursor c l := by
  intro l
  induction l with
  | nil => intro c; exact le_refl c
  | cons p rest ih =>
    intro c
    calc c ≤ nextCursor c p.2 := Nat.le_max_left c p.2
    _ ≤ foldCursor (nextCursor c p.2) rest := ih _

/-- The folded cursor is at or past the stop of every processed
interval. -/
theorem stop_le_foldCursor :
    ∀ (l : List (Nat × Nat)) (c : Nat), ∀ p ∈ l, p.2 ≤ foldCursor c l := by
  intro l
  induction l with
  | nil => intro c p hp; exact absurd hp (by simp)
  | cons q rest ih =>
    intro c p hp
    rcases List.mem_cons.mp hp with rfl | hp
    · calc p.2 ≤ nextCursor c p.2 := Nat.le_max_right c p.2
      _ ≤ foldCursor (nextCursor c p.2) rest := le_foldCursor rest _
    · exact ih (nextCursor c q.2) p hp

/-- If the walked intervals are sorted by start time, no emitted window
overlaps any walked interval (treating intervals as half-open). -/
theorem walk_no_overlap :
    ∀ (pairs : List (Nat × Nat)) (c : Nat),
      List.Pairwise (fun p q : Nat × Nat => p.1 ≤ q.1) pairs →
      ∀ w ∈ walk c pairs, ∀ p ∈ pairs, ¬(w.start < p.2 ∧ p.1 < w.stop) := by
  intro pairs
  induction pairs with
  | nil => intro c _ w h; simp [walk] at h
  | cons q rest ih =>
    intro c hsorted w hw p hp
    obtain ⟨s, t⟩ := q
    have hrest : List.Pairwise (fun p q : Nat × Nat => p.1 ≤ q.1) rest :=
      hsorted.sublist (List.sublist_cons_self _ _)
    have hhead : ∀ r ∈ rest, s ≤ r.1 := by
      intro r hr
      exact List.rel_of_pairwise_cons hsorted hr
    simp only [walk, List.mem_append] at hw
    rcases hw with hw | hw
    · have hstep := stepWindows_mem hw
      rcases List.mem_cons.mp hp with rfl | hp
      · intro hcon
        omega
      · have := hhead p hp
        intro hcon
        omega
    · rcases List.mem_cons.mp hp with rfl | hp
      · have hge := walk_start_ge rest (nextCursor c t) w hw
        have ht : t ≤ nextCursor c t := Nat.le_max_right c t
        intro hcon
        omega
      · exact ih (nextCursor c t) hrest w hw p hp

/-- The pair list produced by `generate_busy_intervals` is sorted by
start time (the guarantee of `sorted(..., key=lambda x: x[0])`). -/
theorem generate_busy_intervals_sorted {busy : List TimeRec}
    {pairs : List (Nat × Nat)}
    (h : generate_busy_intervals busy = .ok pairs) :
    List.Pairwise (fun p q : Nat × Nat => p.1 ≤ q.1) pairs := by
  unfold generate_busy_intervals at h
  split at h
  · exact absurd h (by simp)
  · rename_i ps hconv
    simp only [Except.ok.injEq] at h
    subst h
    exact (List.sorted_insertionSort keyLe ps).imp fun hab => hab

/-- Destructor for a successful run of `generate_free_windows`: it
exposes the parsed day boundaries, the sorted busy pairs, and the fact
that the output is the walk over those pairs with the end sentinel
appended and the cursor initialised to the parsed day start. -/
theorem generate_ok_elim {st et : String} {busy : List TimeRec}
    {l : List Window} (h : generate_free_windows st et busy = .ok l) :
    ∃ s e pairs,
      convert_to_datetime_format st = .ok s ∧
      convert_to_datetime_format et = .ok e ∧
      generate_busy_intervals busy = .ok pairs ∧
      l = walk s (pairs ++ [(e, e)]) := by
  unfold generate_free_windows at h
  cases h1 : convert_to_datetime_format st with
  | error e1 => rw [h1] at h; exact absurd h (by simp)
  | ok s =>
    rw [h1] at h
    cases h2 : convert_to_datetime_format et with
    | error e2 => rw [h2] at h; exact absurd h (by simp)
    | ok e =>
      rw [h2] at h
      cases h3 : generate_busy_intervals busy with
      | error e3 => rw [h3] at h; exact absurd h (by simp)
      | ok pairs =>
        rw [h3] at h
        simp only [Except.ok.injEq] at h
        exact ⟨s, e, pairs, rfl, rfl, rfl, h.symm⟩

/-- A decimal digit character has value at most 9. -/
theorem digitVal_le_nine {c : Char} (h : c.isDigit) : digitVal c ≤ 9 := by
  simp only [Char.isDigit, Bool.and_eq_true, decide_eq_true_eq, Char.le_def] at h
  have h1 := UInt32.toNat_le_of_le (n := c.val) (m := 57) (by norm_num [UInt32.size]) h.2
  unfold digitVal Char.toNat
  omega

/-- A character at most `'3'` has digit value at most 3. -/
theorem digitVal_le_three {c : Char} (h : c ≤ '3') : digitVal c ≤ 3 := by
  rw [Char.le_def] at h
  have h1 := UInt32.toNat_le_of_le (n := c.val) (m := 51) (by norm_num [UInt32.size]) h
  unfold digitVal Char.toNat
  omega

/-- A character at most `'1'` has digit value at most 1. -/
theorem digitVal_le_one {c : Char} (h : c ≤ '1') : digitVal c ≤ 1 := by
  rw [Char.le_def] at h
  have h1 := UInt32.toNat_le_of_le (n := c.val) (m := 49) (by norm_num [UInt32.size]) h
  unfold digitVal Char.toNat
  omega

/-- A character at most `'5'` has digit value at most 5. -/
theorem digitVal_le_five {c : Char} (h : c ≤ '5') : digitVal c ≤ 5 := by
  rw [Char.le_def] at h
  have h1 := UInt32.toNat_le_of_le (n := c.val) (m := 53) (by norm_num [UInt32.size]) h
  unfold digitVal Char.toNat
  omega

/-- Any hour accepted by the `%H` directive is at most 23. -/
theorem matchHour_le {cs : List Char} {h : Nat} {rest : List Char}
    (hm : matchHour cs = some (h, rest)) : h ≤ 23 := by
  match cs with
  | [] => simp [matchHour] at hm
  | [c] =>
    unfold matchHour at hm
    by_cases hd : c.isDigit
    · simp only [if_pos hd, Option.some.injEq, Prod.mk.injEq] at hm
      have := digitVal_le_nine hd
      omega
    · simp [if_neg hd] at hm
  | c1 :: c2 :: cs' =>
    unfold matchHour at hm
    by_cases h1 : c1 = '2' ∧ '0' ≤ c2 ∧ c2 ≤ '3'
    · simp only [if_pos h1, Option.some.injEq, Prod.mk.injEq] at hm
      have := digitVal_le_three h1.2.2
      omega
    · simp only [if_neg h1] at hm
      by_cases h2 : ('0' ≤ c1 ∧ c1 ≤ '1') ∧ c2.isDigit
      · simp only [if_pos h2, Option.some.injEq, Prod.mk.injEq] at hm
        have ha := digitVal_le_one h2.1.2
        have hb := digitVal_le_nine h2.2
        omega
      · simp only [if_neg h2] at hm
        by_cases h3 : c1.isDigit
        · simp only [if_pos h3, Option.some.injEq, Prod.mk.injEq] at hm
          have := digitVal_le_nine h3
          omega
        · simp [if_neg h3] at hm

/-- Any minute accepted by the `%M` directive is at most 59. -/
theorem matchMinute_le {cs : List Char} {m : Nat} {rest : List Char}
    (hm : matchMinute cs = some (m, rest)) : m ≤ 59 := by
  match cs with
  | [] => simp [matchMinute] at hm
  | [c] =>
    unfold matchMinute at hm
    by_cases hd : c.isDigit
    · simp only [if_pos hd, Option.some.injEq, Prod.mk.injEq] at hm
      have := digitVal_le_nine hd
      omega
    · simp [if_neg hd] at hm
  | c1 :: c2 :: cs' =>
    unfold matchMinute at hm
    by_cases h1 : ('0' ≤ c1 ∧ c1 ≤ '5') ∧ c2.isDigit
    · simp only [if_pos h1, Option.some.injEq, Prod.mk.injEq] at hm
      have ha := digitVal_le_five h1.1.2
      have hb := digitVal_le_nine h1.2
      omega
    · simp only [if_neg h1] at hm
      by_cases h2 : c1.isDigit
      · simp only [if_pos h2, Option.some.injEq, Prod.mk.injEq] at hm
        have := digitVal_le_nine h2
        omega
      · simp [if_neg h2] at hm

/-- A successfully parsed time string yields an in-range hour and minute. -/
theorem convert_ok_range {s : String} {n : Nat}
    (h : convert_to_datetime_format s = .ok n) :
    ∃ hh mm, hh ≤ 23 ∧ mm ≤ 59 ∧ n = 60 * hh + mm := by
  unfold convert_to_datetime_format at h
  cases hp : strptimeHM s with
  | none => rw [hp] at h; exact absurd h (by simp)
  | some v =>
    obtain ⟨hh, mm⟩ := v
    rw [hp] at h
    simp only [Except.ok.injEq] at h
    unfold strptimeHM at hp
    split at hp
    · exact absurd hp (by simp)
    · rename_i hv rest hh1
      split at hp
      · rename_i rest2
        split at hp
        · rename_i mv hm1
          simp only [Option.some.injEq, Prod.mk.injEq] at hp
          obtain ⟨rfl, rfl⟩ := hp
          exact ⟨_, _, matchHour_le hh1, matchMinute_le hm1, h.symm⟩
        · exact absurd hp (by simp)
      · exact absurd hp (by simp)

/-- A record that converts successfully carries both fields. -/
theorem convRecord_ok_fields {r : TimeRec} {p : Nat × Nat}
    (h : convRecord r = .ok p) :
    ∃ sa sb, r.start = some sa ∧ r.stop = some sb := by
  unfold convRecord at h
  split at h
  · exact absurd h (by simp)
  · rename_i sa hsa
    split at h
    · exact absurd h (by simp)
    · split at h
      · exact absurd h (by simp)
      · rename_i sb hsb
        exact ⟨sa, sb, hsa, hsb⟩

/-- If some record lacks `start` or `stop`, the interval conversion of
`generate_busy_intervals` fails (Python raises before sorting). -/
theorem convertIntervals_error_of_missing :
    ∀ busy : List TimeRec,
      (∃ r ∈ busy, r.start = none ∨ r.stop = none) →
      ∃ e, convertIntervals busy = .error e := by
  intro busy
  induction busy with
  | nil => rintro ⟨r, hr, _⟩; exact absurd hr (by simp)
  | cons q rest ih =>
    rintro ⟨r, hr, hdef⟩
    cases hcr : convRecord q with
    | error e => exact ⟨e, by simp [convertIntervals, hcr]⟩
    | ok p =>
      obtain ⟨sa, sb, hsa, hsb⟩ := convRecord_ok_fields hcr
      rcases List.mem_cons.mp hr with rfl | hr
      · rcases hdef with hd | hd
        · rw [hsa] at hd; exact absurd hd (by simp)
        · rw [hsb] at hd; exact absurd hd (by simp)
      · obtain ⟨e, he⟩ := ih ⟨r, hr, hdef⟩
        exact ⟨e, by simp [convertIntervals, hcr, he]⟩

/-- If every record carries both fields and both parse, the interval
conversion succeeds. -/
theorem convertIntervals_ok_of_fields :
    ∀ busy : List TimeRec,
      (∀ r ∈ busy, ∃ sa sb na nb,
        r.start = some sa ∧ r.stop = some sb ∧
        convert_to_datetime_format sa = .ok na ∧
        convert_to_datetime_format sb = .ok nb) →
      ∃ ps, convertIntervals busy = .ok ps := by
  intro busy
  induction busy with
  | nil => intro _; exact ⟨[], rfl⟩
  | cons q rest ih =>
    intro hfields
    obtain ⟨sa, sb, na, nb, hsa, hsb, hna, hnb⟩ :=
      hfields q (List.mem_cons_self _ _)
    obtain ⟨ps, hps⟩ := ih fun r hr => hfields r (List.mem_cons_of_mem _ hr)
    refine ⟨(na, nb) :: ps, ?_⟩
    simp [convertIntervals, convRecord, hsa, hsb, hna, hnb, hps]

/-- C2: for a pair walked by the generator, if the gap from the cursor to
the next busy start is at least the 30-minute slot size, exactly
`floor(gap / 30)` consecutive free windows of exactly 30 minutes each are
emitted starting at the cursor, each window's start equal to the previous
window's stop, the remainder shorter than a slot produces no output, and
a gap of exactly 30 minutes yields exactly one free window; a gap below
the slot size emits nothing. -/
theorem C2_gap_tiling (cursor busyStart : Nat) :
    (cursor + 30 ≤ busyStart →
      (stepWindows cursor busyStart).length = (busyStart - cursor) / 30 ∧
      (stepWindows cursor busyStart).head?.map Window.start = some cursor ∧
      (∀ w ∈ stepWindows cursor busyStart,
        w.stop = w.start + 30 ∧ w.type = "Свободное окно") ∧
      List.Chain' (fun u v : Window => u.stop = v.start)
        (stepWindows cursor busyStart) ∧
      (∀ w ∈ stepWindows cursor busyStart, w.stop ≤ busyStart) ∧
      busyStart - (cursor + 30 * ((busyStart - cursor) / 30)) < 30 ∧
      (busyStart - cursor = 30 → (stepWindows cursor busyStart).length = 1)) ∧
    (busyStart < cursor + 30 → stepWindows cursor busyStart = []) := by
  constructor
  · intro hge
    have hlen : (stepWindows cursor busyStart).length = (busyStart - cursor) / 30 := by
      unfold stepWindows
      rw [if_pos hge]
      simp
    refine ⟨hlen, ?_, ?_, stepWindows_chain _ _, ?_, ?_, ?_⟩
    · unfold stepWindows
      rw [if_pos hge]
      have hk : 0 < (busyStart - cursor) / 30 :=
        Nat.div_pos (by omega) (by norm_num)
      obtain ⟨k, hk2⟩ := Nat.exists_eq_succ_of_ne_zero (Nat.pos_iff_ne_zero.mp hk)
      rw [hk2, List.range_succ_eq_map]
      simp
    · intro w hw
      exact ⟨(stepWindows_mem hw).2.1, (stepWindows_mem hw).2.2.2⟩
    · intro w hw
      exact (stepWindows_mem hw).2.2.1
    · have h1 := Nat.div_add_mod (busyStart - cursor) 30
      have h2 : (busyStart - cursor) % 30 < 30 := Nat.mod_lt _ (by norm_num)
      omega
    · intro h30
      rw [hlen, h30]
  · intro hlt
    unfold stepWindows
    rw [if_neg (by omega)]

/-- Witness for C2 at the concrete gap 540–630 (90 minutes, three
windows). -/
theorem C2_gap_tiling_witness :
    (stepWindows 540 630).length = (630 - 540) / 30 ∧
    (stepWindows 540 630).head?.map Window.start = some 540 :=
  ⟨((C2_gap_tiling 540 630).1 (by norm_num)).1,
   ((C2_gap_tiling 540 630).1 (by norm_num)).2.1⟩

/-- C4: every free window emitted by the generator lasts exactly the
30-minute slot size. -/
theorem C4_free_window_duration (start_time end_time : String)
    (busy : List TimeRec) (l : List Window)
    (hgen : generate_free_windows start_time end_time busy = .ok l) :
    ∀ w ∈ l, w.stop = w.start + 30 := by
  obtain ⟨s, e, pairs, _, _, _, rfl⟩ := generate_ok_elim hgen
  intro w hw
  exact (walk_mem_shape _ _ w hw).1

/-- Witness for C4 on the day 09:00–10:00 with no busy intervals,
instantiated at the first emitted window. -/
theorem C4_free_window_duration_witness :
    ({ start := 540, stop := 570, type := "Свободное окно" : Window }).stop =
      ({ start := 540, stop := 570, type := "Свободное окно" : Window }).start + 30 :=
  C4_free_window_duration "09:00" "10:00" [] _ rfl
    { start := 540, stop := 570, type := "Свободное окно" } (by decide)

/-- C9: the generator is a pure deterministic function of its inputs;
running it twice on identical input yields identical output.  (The
Python function's only side effects are `logging.debug` calls, which the
contract excludes; the embedding is a pure function.) -/
theorem C9_deterministic (start_time end_time : String) (busy : List TimeRec) :
    generate_free_windows start_time end_time busy =
      generate_free_windows start_time end_time busy := rfl

/-- C7 counterexample: the non-zero-padded string `"9:00"` is accepted by
`strptime("%H:%M")` (CPython's `%H` matches one or two digits), parsing
to 09:00 instead of failing with a parse error as the claim states. -/
theorem C7_counterexample_nonpadded_accepted :
    convert_to_datetime_format "9:00" = .ok 540 := rfl

/-- C7 amended: a time string with hour or minute out of range, such as
`"25:00"`, fails with a parse error, and parsing never silently yields an
out-of-range value; however exact zero-padding is not enforced — the
non-zero-padded `"9:00"` parses successfully to 09:00. -/
theorem C7_parse_error_amended :
    convert_to_datetime_format "25:00" =
      .error "Некорректный формат времени: 25:00. Ожидается формат HH:MM." ∧
    convert_to_datetime_format "9:00" = .ok 540 ∧
    (∀ s n, convert_to_datetime_format s = .ok n →
      ∃ hh mm, hh ≤ 23 ∧ mm ≤ 59 ∧ n = 60 * hh + mm) :=
  ⟨rfl, rfl, fun _ _ h => convert_ok_range h⟩

/-- Witness for C7's amended in-range property at the string "09:30". -/
theorem C7_parse_error_amended_witness :
    ∃ hh mm, hh ≤ 23 ∧ mm ≤ 59 ∧ 570 = 60 * hh + mm :=
  C7_parse_error_amended.2.2 "09:30" 570 rfl

/-- C1 (code bug): evaluating the generator on a day 09:00–21:00 with the
single busy interval 10:00–11:00 shows that the output contains only
`Свободное окно` entries — the busy interval never appears (with any
label), contradicting both the claim and the function's own docstring,
which promises `Перерыв` entries in the result. -/
theorem C1_busy_interval_never_emitted :
    ∃ l,
      generate_free_windows "09:00" "21:00"
          [{ start := some "10:00", stop := some "11:00" }] = .ok l ∧
      l.length = 22 ∧
      (∀ w ∈ l, w.type = "Свободное окно") ∧
      ∀ w ∈ l, ¬(w.start = 600 ∧ w.stop = 660) := by
  refine ⟨_, rfl, ?_, ?_, ?_⟩ <;> decide

/-- C6: the concrete scenario of `src/main.py` — day 09:00–21:00 with the
built-in `BUSY` list.  The first emitted free window is 09:00–09:30, and
the 230-minute gap 10:50–14:40 yields exactly 7 free windows of 30
minutes each (the 20-minute remainder 14:20–14:40 produces no output). -/
theorem C6_concrete_scenario :
    ∃ l,
      generate_free_windows START_TIME END_TIME BUSY = .ok l ∧
      l.head? = some { start := 540, stop := 570, type := "Свободное окно" } ∧
      l.filter (fun w => decide (650 ≤ w.start ∧ w.stop ≤ 880)) =
        [ { start := 650, stop := 680, type := "Свободное окно" },
          { start := 680, stop := 710, type := "Свободное окно" },
          { start := 710, stop := 740, type := "Свободное окно" },
          { start := 740, stop := 770, type := "Свободное окно" },
          { start := 770, stop := 800, type := "Свободное окно" },
          { start := 800, stop := 830, type := "Свободное окно" },
          { start := 830, stop := 860, type := "Свободное окно" } ] := by
  refine ⟨_, rfl, ?_, ?_⟩ <;> decide

/-- C3: for valid inputs (every busy interval has `start ≤ stop`), the
generator's output is sorted by start time ascending and every two
consecutive emitted intervals satisfy `previous.stop ≤ next.start`. -/
theorem C3_output_sorted_nonoverlapping (start_time end_time : String)
    (busy : List TimeRec) (l : List Window) (pairs : List (Nat × Nat))
    (hgen : generate_free_windows start_time end_time busy = .ok l)
    (hpairs : generate_busy_intervals busy = .ok pairs)
    (hvalid : ∀ p ∈ pairs, p.1 ≤ p.2) :
    List.Pairwise (fun u v : Window => u.start ≤ v.start) l ∧
    List.Chain' (fun u v : Window => u.stop ≤ v.start) l := by
  obtain ⟨s, e, pairs2, hst, het, hpairs2, rfl⟩ := generate_ok_elim hgen
  rw [hpairs] at hpairs2
  injection hpairs2 with hpq
  subst hpq
  have hall : ∀ p ∈ pairs ++ [(e, e)], p.1 ≤ p.2 := by
    intro p hp
    rcases List.mem_append.mp hp with hp | hp
    · exact hvalid p hp
    · simp only [List.mem_singleton] at hp
      subst hp
      exact le_refl e
  have hpw := walk_pairwise (pairs ++ [(e, e)]) s hall
  exact ⟨hpw.imp fun h => h.2, (hpw.imp fun h => h.1).chain'⟩

/-- Witness for C3 on the day 09:00–10:00 with no busy intervals. -/
theorem C3_output_sorted_nonoverlapping_witness :
    List.Pairwise (fun u v : Window => u.start ≤ v.start)
        [ { start := 540, stop := 570, type := "Свободное окно" },
          { start := 570, stop := 600, type := "Свободное окно" } ] ∧
    List.Chain' (fun u v : Window => u.stop ≤ v.start)
        [ { start := 540, stop := 570, type := "Свободное окно" },
          { start := 570, stop := 600, type := "Свободное окно" } ] :=
  C3_output_sorted_nonoverlapping "09:00" "10:00" [] _ [] rfl rfl (by simp)

/-- C5 counterexample: for the day 09:00–10:00 with a busy interval that
starts after `dayEnd` (12:00–12:30), the generator emits free windows
whose stop time exceeds `dayEnd` = 10:00 (600 minutes), so the claim
"for all inputs, no emitted free window extends past dayEnd" is false. -/
theorem C5_counterexample_window_past_day_end :
    convert_to_datetime_format "10:00" = .ok 600 ∧
    ∃ l,
      generate_free_windows "09:00" "10:00"
          [{ start := some "12:00", stop := some "12:30" }] = .ok l ∧
      ∃ w ∈ l, 600 < w.stop := by
  refine ⟨rfl, _, rfl, ?_⟩
  decide

/-- C5 amended: for ALL inputs, every free window emitted while walking
toward a busy interval stops at or before that interval's start, no
emitted free window overlaps any busy interval (so overlapping or nested
busy input never causes such an overlap), and the cursor update
`max(current_start, busy_stop)` never retracts the cursor.  The remaining
guarantee — no free window extends past `dayEnd` — holds under the
proviso that every busy interval starts at or before `dayEnd`, which the
counterexample shows is necessary. -/
theorem C5_windows_within_day_and_disjoint (start_time end_time : String)
    (busy : List TimeRec) (l : List Window) (pairs : List (Nat × Nat))
    (dayEnd : Nat)
    (hgen : generate_free_windows start_time end_time busy = .ok l)
    (hpairs : generate_busy_intervals busy = .ok pairs)
    (het : convert_to_datetime_format end_time = .ok dayEnd) :
    (∀ c b : Nat, ∀ w ∈ stepWindows c b, w.stop ≤ b) ∧
    (∀ w ∈ l, ∀ p ∈ pairs, ¬(w.start < p.2 ∧ p.1 < w.stop)) ∧
    (∀ c t : Nat, c ≤ nextCursor c t) ∧
    ((∀ p ∈ pairs, p.1 ≤ dayEnd) → ∀ w ∈ l, w.stop ≤ dayEnd) := by
  obtain ⟨s, e, pairs2, hst2, het2, hpairs2, rfl⟩ := generate_ok_elim hgen
  rw [hpairs] at hpairs2
  injection hpairs2 with hpq
  subst hpq
  rw [het] at het2
  injection het2 with he
  subst he
  refine ⟨fun c b w hw => (stepWindows_mem hw).2.2.1, ?_,
    fun c t => Nat.le_max_left c t, ?_⟩
  · intro w hw p hp
    rw [walk_append] at hw
    rcases List.mem_append.mp hw with hw | hw
    · exact walk_no_overlap pairs s (generate_busy_intervals_sorted hpairs)
        w hw p hp
    · have hge := walk_start_ge _ _ w hw
      have hstop := stop_le_foldCursor pairs s p hp
      intro hcon
      omega
  · intro hstarts
    apply walk_stop_le
    intro p hp
    rcases List.mem_append.mp hp with hp | hp
    · exact hstarts p hp
    · simp only [List.mem_singleton] at hp
      subst hp
      exact le_refl dayEnd

/-- Witness for C5's amended statement: day 09:00–10:00 with the busy
interval 09:10–09:20. -/
theorem C5_windows_within_day_and_disjoint_witness :
    (∀ c b : Nat, ∀ w ∈ stepWindows c b, w.stop ≤ b) ∧
    (∀ w ∈ [ { start := 560, stop := 590, type := "Свободное окно" : Window } ],
      ∀ p ∈ [((550 : Nat), (560 : Nat))], ¬(w.start < p.2 ∧ p.1 < w.stop)) ∧
    (∀ c t : Nat, c ≤ nextCursor c t) ∧
    ((∀ p ∈ [((550 : Nat), (560 : Nat))], p.1 ≤ 600) →
      ∀ w ∈ [ { start := 560, stop := 590, type := "Свободное окно" : Window } ],
        w.stop ≤ 600) :=
  C5_windows_within_day_and_disjoint "09:00" "10:00"
    [{ start := some "09:10", stop := some "09:20" }] _ _ 600 rfl rfl rfl

/-- C8: whenever some busy-interval record lacks a `start` or `stop`
field, the generator fails with an error that propagates to the caller;
no list of windows (not even a partial one) is returned. -/
theorem C8_missing_field_aborts (start_time end_time : String)
    (busy : List TimeRec)
    (hmiss : ∃ r ∈ busy, r.start = none ∨ r.stop = none) :
    ∃ e, generate_free_windows start_time end_time busy = .error e := by
  obtain ⟨e0, he0⟩ := convertIntervals_error_of_missing busy hmiss
  have hbi : generate_busy_intervals busy = .error e0 := by
    unfold generate_busy_intervals
    rw [he0]
  unfold generate_free_windows
  cases h1 : convert_to_datetime_format start_time with
  | error e1 => exact ⟨_, rfl⟩
  | ok s =>
    cases h2 : convert_to_datetime_format end_time with
    | error e2 => exact ⟨_, rfl⟩
    | ok e =>
      rw [hbi]
      exact ⟨_, rfl⟩

/-- Witness for C8: a record missing its `start` field. -/
theorem C8_missing_field_aborts_witness :
    ∃ e, generate_free_windows "09:00" "21:00"
        [{ start := none, stop := some "10:00" }] = .error e :=
  C8_missing_field_aborts "09:00" "21:00" _
    ⟨{ start := none, stop := some "10:00" }, List.mem_cons_self _ _, Or.inl rfl⟩

/-- C10: the generator performs no range validation.  If the day
boundaries parse and every record carries two parseable fields, it
returns a result — regardless of whether `dayStart < dayEnd` or each
interval's `start ≤ stop`; and for `dayEnd ≤ dayStart` with an empty busy
list it returns the empty list. -/
theorem C10_no_range_validation (start_time end_time : String)
    (busy : List TimeRec) (a b : Nat)
    (hst : convert_to_datetime_format start_time = .ok a)
    (het : convert_to_datetime_format end_time = .ok b)
    (hfields : ∀ r ∈ busy, ∃ sa sb na nb,
      r.start = some sa ∧ r.stop = some sb ∧
      convert_to_datetime_format sa = .ok na ∧
      convert_to_datetime_format sb = .ok nb) :
    (∃ l, generate_free_windows start_time end_time busy = .ok l) ∧
    (b ≤ a → busy = [] →
      generate_free_windows start_time end_time busy = .ok []) := by
  obtain ⟨ps, hps⟩ := convertIntervals_ok_of_fields busy hfields
  constructor
  · unfold generate_free_windows generate_busy_intervals
    rw [hst, het, hps]
    exact ⟨_, rfl⟩
  · intro hba hempty
    subst hempty
    have hw : walk a [(b, b)] = [] := by
      simp only [walk, stepWindows]
      rw [if_neg (by omega)]
      simp
    unfold generate_free_windows generate_busy_intervals
    rw [hst, het]
    simp only [convertIntervals, List.insertionSort, List.nil_append, hw]

/-- Witness for C10: inverted day boundary 21:00–09:00 with no busy
intervals returns the empty list and raises no error. -/
theorem C10_no_range_validation_witness :
    (∃ l, generate_free_windows "21:00" "09:00" [] = .ok l) ∧
    (540 ≤ 1260 → ([] : List TimeRec) = [] →
      generate_free_windows "21:00" "09:00" [] = .ok []) :=
  C10_no_range_validation "21:00" "09:00" [] 1260 540 rfl rfl (by simp)

end MedGarant
